import Mathlib

/-!
# Verification of the SecureExam.OS scoring / delivery core

Shallow embedding of the server core of the quiz application:
* `shared/schema.ts` — table rows become Lean structures (`Participant`,
  `Question`, `Submission`, `Setting`); the whole database becomes `Store`.
* `server/storage.ts` (the `DatabaseStorage` class with reset/epoch support) —
  each data-access method becomes a pure function on `Store`.
* `server/routes.ts` — the request handlers for identify, daily question,
  submit answer and question delete become functions returning `Except`.

JavaScript `number` values flowing through the scoring formulas are embedded
as exact rationals `ℚ`; a separate IEEE-754 double-precision model
(`roundDouble` and the `computeScoreJs` transliteration) captures the binary
floating-point semantics of the same expressions where representation
exactness itself is at issue.
-/

namespace Quiz

/-- Row of the `participants` table (shared/schema.ts). -/
structure Participant where
  id : ℕ
  name : String
  deviceId : String
  isBanned : Bool
  createdAt : ℕ
  lastActiveAt : Option ℕ
deriving DecidableEq, Repr

/-- Row of the `questions` table (shared/schema.ts): content, four options,
correct option index, date string `YYYY-MM-DD`, day order, active flag and
the epoch (`resetId`) it was created under. -/
structure Question where
  id : ℕ
  content : String
  options : List String
  correctAnswerIndex : ℤ
  quizDate : String
  order : ℤ
  isActive : Bool
  resetId : ℕ
deriving DecidableEq, Repr

/-- Row of the `submissions` table (shared/schema.ts).  The `decimal` columns
holding scoring components are embedded as `ℚ`. -/
structure Submission where
  id : ℕ
  participantId : ℕ
  questionId : ℕ
  answerIndex : Option ℤ
  status : String
  answerOrder : ℕ
  wrongAttemptOrder : ℕ
  submissionTimestamp : ℕ
  baseMarks : ℚ
  deductionMarks : ℚ
  bonusPercentage : ℚ
  extraApplied : Bool
  finalScore : ℚ
  deviceId : String
  isAutoSubmitted : Bool
  autoSubmitReason : Option String
  resetId : ℕ
deriving DecidableEq, Repr

/-- Row of the `settings` table (shared/schema.ts): the single mutable record
holding the current reset/epoch id and the last reset timestamp. -/
structure Setting where
  id : ℕ
  currentResetId : ℕ
  lastResetAt : Option ℕ
deriving DecidableEq, Repr

/-- The durable store: all tables, the serial-id counters, and the server
clock (`now`, an abstract tick used for `defaultNow()` timestamp columns). -/
structure Store where
  settings : Option Setting
  participants : List Participant
  questions : List Question
  submissions : List Submission
  nextParticipantId : ℕ
  nextSubmissionId : ℕ
  now : ℕ
deriving DecidableEq, Repr

/-- `DatabaseStorage.getCurrentResetId`: the stored current epoch, defaulting
to `0` when the settings row does not exist yet (the source lazily inserts a
`{currentResetId: 0}` row in that case; the value returned is the same). -/
def getCurrentResetId (db : Store) : ℕ :=
  match db.settings with
  | none => 0
  | some s => s.currentResetId

/-- `DatabaseStorage.performReset`: reads the current epoch, adds one, and
writes the new epoch id together with the reset timestamp back into the
single settings row (inserting the row when absent).  Returns the new id. -/
def performReset (db : Store) : ℕ × Store :=
  let currentId := getCurrentResetId db
  let newId := currentId + 1
  match db.settings with
  | some s =>
      (newId, { db with settings := some { s with currentResetId := newId, lastResetAt := some db.now } })
  | none =>
      (newId, { db with settings := some { id := 1, currentResetId := newId, lastResetAt := some db.now } })

/-- `DatabaseStorage.getQuestion`: look a question up by id. -/
def getQuestion (id : ℕ) (db : Store) : Option Question :=
  db.questions.find? (fun q => q.id = id)

/-- `orderBy desc(order) limit 1` over a list of questions: some question with
maximal `order` (the source's SQL leaves ties unspecified; the first listed
row with the maximal order is kept). -/
def pickMaxOrder : List Question → Option Question
  | [] => none
  | q :: rest =>
    match pickMaxOrder rest with
    | none => some q
    | some r => if r.order ≤ q.order then some q else some r

/-- `DatabaseStorage.getDailyQuestion`: the active question of the given date
in the current epoch with the highest day order. -/
def getDailyQuestion (date : String) (db : Store) : Option Question :=
  let resetId := getCurrentResetId db
  pickMaxOrder (db.questions.filter
    (fun q => q.quizDate = date ∧ q.isActive = true ∧ q.resetId = resetId))

/-- `DatabaseStorage.getSubmission`: the submission of one participant for one
question, if any. -/
def getSubmission (participantId questionId : ℕ) (db : Store) : Option Submission :=
  db.submissions.find?
    (fun s => s.participantId = participantId ∧ s.questionId = questionId)

/-- `DatabaseStorage.getGlobalAnswerOrder`: number of submissions already
recorded for the question, plus one. -/
def getGlobalAnswerOrder (questionId : ℕ) (db : Store) : ℕ :=
  (db.submissions.filter (fun s => s.questionId = questionId)).length + 1

/-- `orderBy desc(submissionTimestamp) limit 1`: some submission with maximal
timestamp (ties again resolved to the first listed row). -/
def pickLatestSubmission (l : List Submission) : Option Submission :=
  l.foldl (fun acc s =>
    match acc with
    | none => some s
    | some a => if a.submissionTimestamp < s.submissionTimestamp then some s else some a) none

/-- `DatabaseStorage.getPreviousQuestionScore`: final score of the
participant's most recent submission (any question), or the sentinel `100`
when no prior submission exists. -/
def getPreviousQuestionScore (participantId : ℕ) (db : Store) : ℚ :=
  match pickLatestSubmission
      (db.submissions.filter (fun s => s.participantId = participantId)) with
  | none => 100
  | some prev => prev.finalScore

/-- JavaScript `!!x` on the optional `reason` string: `undefined` and the
empty string are falsy, any other string is truthy. -/
def jsTruthy (o : Option String) : Bool :=
  match o with
  | none => false
  | some s => s ≠ ""

/-- Request body of `POST /api/submit` (`submitAnswerSchema`): the answer
index is any number or null, the reason is optional. -/
structure SubmitInput where
  questionId : ℕ
  answerIndex : Option ℤ
  deviceId : String
  reason : Option String
deriving DecidableEq, Repr

/-- Business-rule rejections of the submit handler. -/
inductive SubmitError where
  | alreadySubmitted
  | questionNotFound
deriving DecidableEq, Repr

/-- The scoring components computed by the submit handler
(`routes.ts`, "Scoring Logic" steps 1–8). -/
structure ScoreBreakdown where
  status : String
  wrongAttemptOrder : ℕ
  baseMarks : ℚ
  deductionMarks : ℚ
  bonusPercentage : ℚ
  extraApplied : Bool
  finalScore : ℚ
deriving DecidableEq, Repr

/-- Steps 2–8 of the scoring logic of `routes.ts` (`POST /api/submit`),
transliterated with exact rational arithmetic in place of JS numbers:
wrong-attempt order fixed at 1, base marks `max(0, 510 - answerOrder*10)`,
status from the submitted index, deduction `-5*(wrongAttemptOrder-1)` on a
wrong answer, recovery eligibility `prevScore ≤ 0`, bonus percentage
`max(0, 0.7 - answerOrder*0.1)`, final score per status with the recovery
multiplier `(1 + bonus)` when eligible, floored at `-50`. -/
def computeScore (correctAnswerIndex : ℤ) (answerIndex : Option ℤ)
    (answerOrder : ℕ) (prevScore : ℚ) : ScoreBreakdown :=
  let wrongAttemptOrder : ℕ := 1
  let baseMarks : ℚ := max 0 (510 - (answerOrder : ℚ) * 10)
  let status : String :=
    match answerIndex with
    | none => "UNATTEMPTED"
    | some i => if i = correctAnswerIndex then "CORRECT" else "WRONG"
  let deductionMarks : ℚ :=
    if status = "WRONG" then -5 * ((wrongAttemptOrder : ℚ) - 1) else 0
  let isEligibleForExtra : Bool := prevScore ≤ 0
  let bonusPercentage : ℚ := max 0 (7/10 - (answerOrder : ℚ) * (1/10))
  let fe : ℚ × Bool :=
    if status = "CORRECT" then
      if isEligibleForExtra then (baseMarks * (1 + bonusPercentage), true)
      else (baseMarks, false)
    else if status = "WRONG" then (deductionMarks, false)
    else (0, false)
  { status := status
    wrongAttemptOrder := wrongAttemptOrder
    baseMarks := baseMarks
    deductionMarks := deductionMarks
    bonusPercentage := bonusPercentage
    extraApplied := fe.2
    finalScore := max (-50) fe.1 }

/-- `DatabaseStorage.createSubmission` as invoked by the submit handler:
materialize the row (epoch stamped at insertion time, timestamp from the
clock) and append it. -/
def createSubmission (participantId : ℕ) (input : SubmitInput)
    (br : ScoreBreakdown) (answerOrder : ℕ) (db : Store) : Submission × Store :=
  let sub : Submission :=
    { id := db.nextSubmissionId
      participantId := participantId
      questionId := input.questionId
      answerIndex := input.answerIndex
      status := br.status
      answerOrder := answerOrder
      wrongAttemptOrder := br.wrongAttemptOrder
      submissionTimestamp := db.now
      baseMarks := br.baseMarks
      deductionMarks := br.deductionMarks
      bonusPercentage := br.bonusPercentage
      extraApplied := br.extraApplied
      finalScore := br.finalScore
      deviceId := input.deviceId
      isAutoSubmitted := jsTruthy input.reason
      autoSubmitReason := input.reason
      resetId := getCurrentResetId db }
  (sub, { db with submissions := db.submissions ++ [sub],
                  nextSubmissionId := db.nextSubmissionId + 1 })

/-- The values the submit handler reads from the store before writing
(each a separate awaited query in the source). -/
structure SubmitReads where
  existing : Option Submission
  question : Option Question
  answerOrder : ℕ
  prevScore : ℚ
deriving DecidableEq, Repr

/-- The read phase of `POST /api/submit`: existing-submission check, question
lookup, global answer order, previous-question score — four independent
queries, none of which locks or snapshots the store. -/
def submitReads (participantId : ℕ) (input : SubmitInput) (db : Store) : SubmitReads :=
  { existing := getSubmission participantId input.questionId db
    question := getQuestion input.questionId db
    answerOrder := getGlobalAnswerOrder input.questionId db
    prevScore := getPreviousQuestionScore participantId db }

/-- The decision-and-write phase of `POST /api/submit`, applied to previously
read values `r` (which, in the source, may be stale by the time of the
insert: nothing re-validates them inside a transaction). -/
def submitCommit (participantId : ℕ) (input : SubmitInput) (r : SubmitReads)
    (db : Store) : Except SubmitError (Submission × Store) :=
  match r.existing with
  | some _ => .error .alreadySubmitted
  | none =>
    match r.question with
    | none => .error .questionNotFound
    | some question =>
      let br := computeScore question.correctAnswerIndex input.answerIndex
        r.answerOrder r.prevScore
      .ok (createSubmission participantId input br r.answerOrder db)

/-- The whole `POST /api/submit` handler run without interference: reads
followed immediately by the commit against the same store. -/
def submitAnswer (participantId : ℕ) (input : SubmitInput) (db : Store) :
    Except SubmitError (Submission × Store) :=
  submitCommit participantId input (submitReads participantId input db) db

/-- Rejections of `POST /api/identify`. -/
inductive IdentifyError where
  | nameConflict
  | deviceConflict
  | banned
deriving DecidableEq, Repr

/-- `POST /api/identify`: find the participant by name (the device must then
match), otherwise refuse a device already registered under another name,
otherwise create a fresh participant (not banned by default); finally a
banned participant is rejected before any token is issued. -/
def identify (name deviceId : String) (db : Store) :
    Except IdentifyError (Participant × Store) :=
  let got : Except IdentifyError (Participant × Store) :=
    match db.participants.find? (fun p => p.name = name) with
    | some p =>
        if p.deviceId = deviceId then .ok (p, db) else .error .nameConflict
    | none =>
        match db.participants.find? (fun p => p.deviceId = deviceId) with
        | some _ => .error .deviceConflict
        | none =>
            let p : Participant :=
              { id := db.nextParticipantId, name := name, deviceId := deviceId
                isBanned := false, createdAt := db.now, lastActiveAt := some db.now }
            .ok (p, { db with participants := db.participants ++ [p],
                              nextParticipantId := db.nextParticipantId + 1 })
  match got with
  | .error e => .error e
  | .ok (p, db') => if p.isBanned then .error .banned else .ok (p, db')

/-- The public projection of a question served by `GET /api/question/daily`
(never exposes the correct-answer index). -/
structure PublicQuestion where
  id : ℕ
  content : String
  options : List String
  quizDate : String
  order : ℤ
deriving DecidableEq, Repr

/-- `GET /api/question/daily` for an authenticated participant id: today's
question of the current epoch, hidden again once this participant has
submitted.  Nothing in the handler consults the participants table. -/
def getDailyQuestionRoute (participantId : ℕ) (today : String) (db : Store) :
    Option PublicQuestion :=
  match getDailyQuestion today db with
  | none => none
  | some question =>
    match getSubmission participantId question.id db with
    | some _ => none
    | none =>
        some { id := question.id, content := question.content,
               options := question.options, quizDate := question.quizDate,
               order := question.order }

/-- `DatabaseStorage.deleteSubmissionsByQuestion`: remove every submission
referencing the question. -/
def deleteSubmissionsByQuestion (questionId : ℕ) (db : Store) : Store :=
  { db with submissions := db.submissions.filter (fun s => s.questionId ≠ questionId) }

/-- Failure of the bare question delete at the database: the
`submissions.question_id` foreign key has no `ON DELETE CASCADE`
(shared/schema.ts), so PostgreSQL rejects deleting a question that still has
child submissions. -/
inductive DeleteError where
  | fkViolation
deriving DecidableEq, Repr

/-- `DatabaseStorage.deleteQuestion` as executed by the database: blocked by
the foreign key while any submission references the question, otherwise the
question row is removed and nothing else changes. -/
def deleteQuestionDb (id : ℕ) (db : Store) : Except DeleteError Store :=
  if db.submissions.any (fun s => s.questionId = id) then .error .fkViolation
  else .ok { db with questions := db.questions.filter (fun q => q.id ≠ id) }

/-- `DELETE /api/admin/questions/:id`: the handler first deletes all child
submissions itself, then deletes the question. -/
def deleteQuestionRoute (id : ℕ) (db : Store) : Except DeleteError Store :=
  deleteQuestionDb id (deleteSubmissionsByQuestion id db)

/-- The rows `DatabaseStorage.getLeaderboard` aggregates: submissions of the
current epoch, inner-joined to participants and questions, restricted to one
quiz date for the daily variant.  The sums, sorting and ranks are computed
from exactly this row set. -/
def leaderboardSourceRows (typ : String) (date : Option String) (db : Store) :
    List Submission :=
  let resetId := getCurrentResetId db
  db.submissions.filter (fun s =>
    s.resetId == resetId &&
    db.participants.any (fun p => p.id == s.participantId) &&
    match db.questions.find? (fun q => q.id = s.questionId) with
    | none => false
    | some q =>
      match typ, date with
      | "daily", some d => q.quizDate == d
      | _, _ => true)

/-! ## IEEE-754 double-precision model

The scoring handler computes with JavaScript numbers, i.e. IEEE-754 binary64
values.  Every finite double is an exact rational, and every operation used
by the handler rounds its exact rational result to the nearest double (ties
to even).  `roundDouble` implements that rounding for values in the normal
range (the scoring values all are; overflow and subnormals do not occur),
which lets the handler's arithmetic be replayed bit-exactly inside `ℚ`. -/

/-- Number of binary digits of `n` (`0` for `0`), fuel-bounded so that it
reduces structurally; correct for every `n < 2^300`, far above any value
appearing in the scoring computation. -/
def bitLenAux : ℕ → ℕ → ℕ
  | 0, _ => 0
  | fuel + 1, n => if n = 0 then 0 else bitLenAux fuel (n / 2) + 1

/-- Bit length of a natural number below `2^300`. -/
def bitLen (n : ℕ) : ℕ := bitLenAux 300 n

/-- An exact rational carried as an unreduced fraction of integers (the
operations below keep denominators positive).  Used for the double model so
that every computation reduces by `decide`; `QR.toRat` recovers the value. -/
structure QR where
  num : ℤ
  den : ℤ
deriving DecidableEq, Repr

/-- The rational value denoted by an unreduced fraction. -/
def QR.toRat (x : QR) : ℚ := (x.num : ℚ) / (x.den : ℚ)

/-- Exact fraction product. -/
def QR.mul (x y : QR) : QR := ⟨x.num * y.num, x.den * y.den⟩

/-- Exact fraction difference. -/
def QR.sub (x y : QR) : QR := ⟨x.num * y.den - y.num * x.den, x.den * y.den⟩

/-- Exact fraction sum. -/
def QR.add (x y : QR) : QR := ⟨x.num * y.den + y.num * x.den, x.den * y.den⟩

/-- `x ≤ y` by cross multiplication (positive denominators). -/
def QR.leb (x y : QR) : Bool := x.num * y.den ≤ y.num * x.den

/-- `x < y` by cross multiplication (positive denominators). -/
def QR.ltb (x y : QR) : Bool := x.num * y.den < y.num * x.den

/-- Value equality by cross multiplication (positive denominators). -/
def QR.eqv (x y : QR) : Bool := x.num * y.den = y.num * x.den

/-- An integer as a fraction. -/
def QR.ofInt (n : ℤ) : QR := ⟨n, 1⟩

/-- JS `Math.max(a, b)` on exact values. -/
def QR.maxQ (x y : QR) : QR := if QR.ltb x y then y else x

/-- Assemble a rounded significand `n` and binade exponent `e` into the
exact fraction `n * 2^(e-52)` (the last step of rounding). -/
def buildDouble (n : ℕ) (e : ℤ) : QR :=
  if 0 ≤ e - 52 then ⟨(n : ℤ) * 2 ^ (e - 52).toNat, 1⟩
  else ⟨(n : ℤ), (2 : ℤ) ^ (52 - e).toNat⟩

/-- Round a positive fraction to the nearest IEEE-754 binary64 value
(53-bit significand, round to nearest, ties to even), returned as the exact
fraction it denotes.  Valid for inputs in the normal range, which covers
every value of the scoring computation. -/
def roundPosQR (x : QR) : QR :=
  let a : ℕ := x.num.toNat
  let b : ℕ := x.den.toNat
  let e0 : ℤ := (bitLen a : ℤ) - (bitLen b : ℤ)
  let belowE0 : Bool :=
    if 0 ≤ e0 then a < b * 2 ^ e0.toNat else a * 2 ^ (-e0).toNat < b
  let e : ℤ := if belowE0 then e0 - 1 else e0
  let k : ℤ := 52 - e
  let sn : ℕ := if 0 ≤ k then a * 2 ^ k.toNat else a
  let sd : ℕ := if 0 ≤ k then b else b * 2 ^ (-k).toNat
  let fl : ℕ := sn / sd
  let rem : ℕ := sn % sd
  let n : ℕ :=
    if 2 * rem < sd then fl
    else if sd < 2 * rem then fl + 1
    else if fl % 2 = 0 then fl else fl + 1
  buildDouble n e

/-- Round any exact fraction in the (signed) normal double range to the
nearest IEEE-754 binary64 value. -/
def roundDouble (x : QR) : QR :=
  if x.num = 0 then ⟨0, 1⟩
  else if x.num < 0 then
    let r := roundPosQR ⟨-x.num, x.den⟩
    ⟨-r.num, r.den⟩
  else roundPosQR x

/-- JS `a * b` on doubles. -/
def dmul (a b : QR) : QR := roundDouble (QR.mul a b)

/-- JS `a - b` on doubles. -/
def dsub (a b : QR) : QR := roundDouble (QR.sub a b)

/-- JS `a + b` on doubles. -/
def dadd (a b : QR) : QR := roundDouble (QR.add a b)

/-- The double denoted by the JS literal `0.7`. -/
def lit07 : QR := roundDouble ⟨7, 10⟩

/-- The double denoted by the JS literal `0.1`. -/
def lit01 : QR := roundDouble ⟨1, 10⟩

/-- The scoring components under double-precision semantics. -/
structure ScoreBreakdownJs where
  status : String
  wrongAttemptOrder : ℕ
  baseMarks : QR
  deductionMarks : QR
  bonusPercentage : QR
  extraApplied : Bool
  finalScore : QR
deriving DecidableEq, Repr

/-- Steps 2–8 of the scoring logic of `routes.ts` again, this time under the
actual JavaScript double-precision semantics: every `+`, `-`, `*` rounds to
the nearest binary64 value, the literals `0.7` and `0.1` denote their
nearest doubles, and `Math.max` (exact on already-rounded values) picks the
larger double. -/
def computeScoreJs (correctAnswerIndex : ℤ) (answerIndex : Option ℤ)
    (answerOrder : ℕ) (prevScore : QR) : ScoreBreakdownJs :=
  let wrongAttemptOrder : ℕ := 1
  let baseMarks : QR :=
    QR.maxQ (QR.ofInt 0) (dsub (QR.ofInt 510) (dmul (QR.ofInt answerOrder) (QR.ofInt 10)))
  let status : String :=
    match answerIndex with
    | none => "UNATTEMPTED"
    | some i => if i = correctAnswerIndex then "CORRECT" else "WRONG"
  let deductionMarks : QR :=
    if status = "WRONG" then
      dmul (QR.ofInt (-5)) (dsub (QR.ofInt wrongAttemptOrder) (QR.ofInt 1))
    else QR.ofInt 0
  let isEligibleForExtra : Bool := QR.leb prevScore (QR.ofInt 0)
  let bonusPercentage : QR :=
    QR.maxQ (QR.ofInt 0) (dsub lit07 (dmul (QR.ofInt answerOrder) lit01))
  let fe : QR × Bool :=
    if status = "CORRECT" then
      if isEligibleForExtra then (dmul baseMarks (dadd (QR.ofInt 1) bonusPercentage), true)
      else (baseMarks, false)
    else if status = "WRONG" then (deductionMarks, false)
    else (QR.ofInt 0, false)
  { status := status
    wrongAttemptOrder := wrongAttemptOrder
    baseMarks := baseMarks
    deductionMarks := deductionMarks
    bonusPercentage := bonusPercentage
    extraApplied := fe.2
    finalScore := QR.maxQ (QR.ofInt (-50)) fe.1 }

/-! ## Spec-modelled time-gated visibility resolver

The `questions` table of `src/shared/schema.ts` has no `scheduledTime`
column and `getDailyQuestion` performs no time-of-day filtering, although
the admin client (`client/src/pages/Admin.tsx`) creates questions carrying a
`scheduledTime` and `replit.md` documents the scheduled-delivery mechanism.
The server-side resolver implementing the gate is therefore not under
`src/`; it is modelled here from spec §4.1. -/

/-- Modelled from the spec: a question as seen by the visibility resolver of
spec §4.1, carrying the optional scheduled activation time (`HH:mm`,
zero-padded 24-hour wall-clock string) missing from `src/shared/schema.ts`. -/
structure ScheduledQuestion where
  id : ℕ
  quizDate : String
  order : ℤ
  isActive : Bool
  resetId : ℕ
  scheduledTime : Option String
deriving DecidableEq, Repr

/-- Lexicographic `≤` on character lists (by code point). -/
def charListLe : List Char → List Char → Bool
  | [], _ => true
  | _ :: _, [] => false
  | a :: as, b :: bs =>
    if a.val < b.val then true
    else if b.val < a.val then false
    else charListLe as bs

/-- Lexicographic string `≤`, the comparison used on zero-padded `HH:mm`
strings (for which it coincides with chronological order). -/
def strLe (a b : String) : Bool := charListLe a.data b.data

/-- Strict lexicographic string `<`. -/
def strLt (a b : String) : Bool := strLe a b && !(a == b)

/-- Modelled from the spec: the sort key of a question's scheduled time,
defaulting a missing time to `"00:00"` (spec §4.1 edge-case policy). -/
def timeKey (q : ScheduledQuestion) : String := q.scheduledTime.getD "00:00"

/-- Modelled from the spec: eligibility at wall-clock `nowTime` — no
scheduled time, or scheduled time ≤ current wall-clock time (spec §4.1
step 4). -/
def eligibleAt (nowTime : String) (q : ScheduledQuestion) : Bool :=
  match q.scheduledTime with
  | none => true
  | some t => strLe t nowTime

/-- Modelled from the spec: `b` strictly precedes `a` in the "latest
scheduled time wins, ties broken by highest day-order" preference of spec
§4.1 step 6. -/
def laterSlot (a b : ScheduledQuestion) : Bool :=
  strLt (timeKey b) (timeKey a) || (timeKey a == timeKey b && b.order < a.order)

/-- Modelled from the spec: select the eligible question with the latest
scheduled time, ties broken by highest day-order (first listed wins a full
tie). -/
def pickLatestSlot : List ScheduledQuestion → Option ScheduledQuestion
  | [] => none
  | q :: rest =>
    match pickLatestSlot rest with
    | none => some q
    | some r => if laterSlot r q then some r else some q

/-- Modelled from the spec: `resolveVisibleQuestion(now, participantId)` of
spec §4.1 — today's active questions of the current epoch, filtered to the
ones whose slot has opened, latest slot wins, and `none` once the
participant has already submitted for the winner.  `subs` lists the
(participant, question) pairs already submitted. -/
def resolveVisibleQuestion (today nowTime : String) (participantId : ℕ)
    (currentEpoch : ℕ) (qs : List ScheduledQuestion) (subs : List (ℕ × ℕ)) :
    Option ScheduledQuestion :=
  let todays := qs.filter (fun q =>
    q.quizDate == today && q.isActive && q.resetId == currentEpoch)
  let eligible := todays.filter (eligibleAt nowTime)
  match pickLatestSlot eligible with
  | none => none
  | some q =>
    if subs.any (fun s => s.1 == participantId && s.2 == q.id) then none
    else some q

/-! ## Helper lemmas -/

/-- When the pair has no submission yet and the question exists, the submit
handler reaches the scoring steps and persists exactly one new row. -/
lemma submitAnswer_ok (pid : ℕ) (input : SubmitInput) (db : Store) (q : Question)
    (hnosub : getSubmission pid input.questionId db = none)
    (hq : getQuestion input.questionId db = some q) :
    submitAnswer pid input db = .ok (createSubmission pid input
      (computeScore q.correctAnswerIndex input.answerIndex
        (getGlobalAnswerOrder input.questionId db) (getPreviousQuestionScore pid db))
      (getGlobalAnswerOrder input.questionId db) db) := by
  simp only [submitAnswer, submitCommit, submitReads]
  rw [hnosub, hq]

/-- On a correct answer the scoring steps produce the CORRECT breakdown. -/
lemma computeScore_correct (c : ℤ) (ord : ℕ) (prev : ℚ) :
    computeScore c (some c) ord prev =
      { status := "CORRECT"
        wrongAttemptOrder := 1
        baseMarks := max 0 (510 - (ord : ℚ) * 10)
        deductionMarks := 0
        bonusPercentage := max 0 (7/10 - (ord : ℚ) * (1/10))
        extraApplied := decide (prev ≤ 0)
        finalScore :=
          if prev ≤ 0 then
            max (-50) ((max 0 (510 - (ord : ℚ) * 10)) *
              (1 + max 0 (7/10 - (ord : ℚ) * (1/10))))
          else max (-50) (max 0 (510 - (ord : ℚ) * 10)) } := by
  simp only [computeScore]
  by_cases h : prev ≤ 0 <;> simp [h]

/-! ## Claims -/

/-- On a wrong answer the scoring steps produce the WRONG breakdown with a
zero deduction (wrong-attempt order is fixed at 1) and a zero final score. -/
lemma computeScore_wrong (c i : ℤ) (hne : i ≠ c) (ord : ℕ) (prev : ℚ) :
    computeScore c (some i) ord prev =
      { status := "WRONG"
        wrongAttemptOrder := 1
        baseMarks := max 0 (510 - (ord : ℚ) * 10)
        deductionMarks := 0
        bonusPercentage := max 0 (7/10 - (ord : ℚ) * (1/10))
        extraApplied := false
        finalScore := 0 } := by
  simp only [computeScore, if_neg hne, if_pos rfl,
    if_neg (show ¬("WRONG" : String) = "CORRECT" by decide)]
  norm_num

/-- C6: for every submission whose non-null submittedIndex differs from the
question's correctAnswerIndex — the accepted index being any integer, not
just 0–3 — the persisted record has status WRONG, wrongAttemptOrder 1,
deductionMarks `-5*(wrongAttemptOrder - 1) = 0`, and finalScore 0. -/
theorem wrong_answer_scored_zero (db : Store) (pid : ℕ) (input : SubmitInput)
    (q : Question) (i : ℤ)
    (hnosub : getSubmission pid input.questionId db = none)
    (hq : getQuestion input.questionId db = some q)
    (hidx : input.answerIndex = some i)
    (hwrong : i ≠ q.correctAnswerIndex) :
    ∃ sub db', submitAnswer pid input db = .ok (sub, db') ∧
      sub.status = "WRONG" ∧
      sub.answerIndex = some i ∧
      sub.wrongAttemptOrder = 1 ∧
      sub.deductionMarks = -5 * ((sub.wrongAttemptOrder : ℚ) - 1) ∧
      sub.deductionMarks = 0 ∧
      sub.finalScore = 0 := by
  have h := submitAnswer_ok pid input db q hnosub hq
  rw [hidx, computeScore_wrong q.correctAnswerIndex i hwrong] at h
  refine ⟨_, _, h, rfl, ?_, rfl, ?_, rfl, rfl⟩
  · simp only [createSubmission, hidx]
  · simp only [createSubmission]
    norm_num

/-- A concrete store used to instantiate the theorems: one participant, one
active question dated today, no submissions yet. -/
def wStore : Store :=
  { settings := none
    participants := [{ id := 1, name := "alice", deviceId := "device-alice-0001",
                       isBanned := false, createdAt := 0, lastActiveAt := some 0 }]
    questions := [{ id := 1, content := "Capital of France?",
                    options := ["Paris", "London", "Rome", "Berlin"],
                    correctAnswerIndex := 0, quizDate := "2026-10-11", order := 1,
                    isActive := true, resetId := 0 }]
    submissions := []
    nextParticipantId := 2
    nextSubmissionId := 1
    now := 5 }

/-- The question stored in `wStore`. -/
def wQuestion : Question :=
  { id := 1, content := "Capital of France?",
    options := ["Paris", "London", "Rome", "Berlin"],
    correctAnswerIndex := 0, quizDate := "2026-10-11", order := 1,
    isActive := true, resetId := 0 }

/-- Witness for C6 at a concrete input, with a submitted index (7) outside
the 0–3 option range. -/
theorem wrong_answer_scored_zero_witness :
    ∃ sub db',
      submitAnswer 1 ⟨1, some 7, "device-alice-0001", none⟩ wStore = .ok (sub, db') ∧
      sub.status = "WRONG" ∧
      sub.answerIndex = some 7 ∧
      sub.wrongAttemptOrder = 1 ∧
      sub.deductionMarks = -5 * ((sub.wrongAttemptOrder : ℚ) - 1) ∧
      sub.deductionMarks = 0 ∧
      sub.finalScore = 0 :=
  wrong_answer_scored_zero wStore 1 ⟨1, some 7, "device-alice-0001", none⟩
    wQuestion 7 (by decide) (by decide) rfl (by decide)

/-- C5: the submit handler fails with AlreadySubmitted exactly when a
submission for the (participant, question) pair already exists, fails with
QuestionNotFound exactly when the question id is unknown (given referential
integrity: every stored submission references a stored question), and
persists nothing on failure — both rejections are returned before
`createSubmission` is reached, and a success appends exactly the one
complete submission row, leaving every other table untouched. -/
theorem submit_error_contract (db : Store) (pid : ℕ) (input : SubmitInput)
    (hfk : ∀ s ∈ db.submissions, ∃ q ∈ db.questions, q.id = s.questionId) :
    (submitAnswer pid input db = .error .alreadySubmitted ↔
      (getSubmission pid input.questionId db).isSome = true) ∧
    (submitAnswer pid input db = .error .questionNotFound ↔
      getQuestion input.questionId db = none) ∧
    (∀ sub db', submitAnswer pid input db = .ok (sub, db') →
      db'.submissions = db.submissions ++ [sub] ∧
      db'.questions = db.questions ∧
      db'.participants = db.participants ∧
      db'.settings = db.settings) := by
  refine ⟨?_, ?_, ?_⟩
  · cases hsub : getSubmission pid input.questionId db with
    | some s =>
        simp only [submitAnswer, submitCommit, submitReads, hsub]
        simp
    | none =>
        simp only [submitAnswer, submitCommit, submitReads, hsub]
        cases hq : getQuestion input.questionId db with
        | none => simp
        | some q => simp
  · cases hsub : getSubmission pid input.questionId db with
    | some s =>
        have hmem := List.mem_of_find?_eq_some hsub
        have hpred := List.find?_some hsub
        rw [decide_eq_true_eq] at hpred
        obtain ⟨q, hqmem, hqid⟩ := hfk s hmem
        simp only [submitAnswer, submitCommit, submitReads, hsub]
        constructor
        · intro hcontra
          exact absurd hcontra (by simp)
        · intro hnone
          rw [getQuestion, List.find?_eq_none] at hnone
          have := hnone q hqmem
          simp only [decide_eq_true_eq] at this
          exact absurd (hqid.trans hpred.2) this
    | none =>
        simp only [submitAnswer, submitCommit, submitReads, hsub]
        cases hq : getQuestion input.questionId db with
        | none => simp
        | some q => simp
  · intro sub db' h
    cases hsub : getSubmission pid input.questionId db with
    | some s =>
        simp only [submitAnswer, submitCommit, submitReads, hsub] at h
        exact Except.noConfusion h
    | none =>
        cases hq : getQuestion input.questionId db with
        | none =>
            simp only [submitAnswer, submitCommit, submitReads, hsub, hq] at h
            exact Except.noConfusion h
        | some q =>
            rw [submitAnswer_ok pid input db q hsub hq, Except.ok.injEq,
              Prod.ext_iff] at h
            obtain ⟨h1, h2⟩ := h
            subst h2
            dsimp only at h1
            refine ⟨?_, rfl, rfl, rfl⟩
            rw [← h1]
            rfl

/-- A store with one recorded submission for the pair (participant 1,
question 1), satisfying referential integrity. -/
def wSubmission : Submission :=
  { id := 1, participantId := 1, questionId := 1, answerIndex := some 0,
    status := "CORRECT", answerOrder := 1, wrongAttemptOrder := 1,
    submissionTimestamp := 3, baseMarks := 500, deductionMarks := 0,
    bonusPercentage := 3/5, extraApplied := false, finalScore := 500,
    deviceId := "device-alice-0001", isAutoSubmitted := false,
    autoSubmitReason := none, resetId := 0 }

/-- `wStore` after the submission above has been recorded. -/
def wStoreSubmitted : Store := { wStore with submissions := [wSubmission] }

/-- Witness for C5 at a concrete input: a second submission for an existing
pair is rejected with AlreadySubmitted. -/
theorem submit_error_contract_witness :
    submitAnswer 1 ⟨1, some 0, "device-alice-0001", none⟩ wStoreSubmitted =
      .error .alreadySubmitted :=
  ((submit_error_contract wStoreSubmitted 1 ⟨1, some 0, "device-alice-0001", none⟩
    (by decide)).1).mpr (by decide)

/-- With a null answer index the scoring steps produce the UNATTEMPTED
breakdown with a zero final score. -/
lemma computeScore_unattempted (c : ℤ) (ord : ℕ) (prev : ℚ) :
    computeScore c none ord prev =
      { status := "UNATTEMPTED"
        wrongAttemptOrder := 1
        baseMarks := max 0 (510 - (ord : ℚ) * 10)
        deductionMarks := 0
        bonusPercentage := max 0 (7/10 - (ord : ℚ) * (1/10))
        extraApplied := false
        finalScore := 0 } := by
  simp only [computeScore,
    if_neg (show ¬("UNATTEMPTED" : String) = "WRONG" by decide),
    if_neg (show ¬("UNATTEMPTED" : String) = "CORRECT" by decide)]
  norm_num

/-- A view of a submit result sufficient to refute C4: the persisted answer
index, status, auto-submit flag, stored reason and final score. -/
def submitView (r : Except SubmitError (Submission × Store)) :
    Option (Option ℤ × String × Bool × Option String × ℚ) :=
  match r with
  | .ok x => some (x.1.answerIndex, x.1.status, x.1.isAutoSubmitted,
      x.1.autoSubmitReason, x.1.finalScore)
  | .error _ => none

/-- C4 counterexample: a submit call that supplies a forced reason together
with a non-null (correct) answer index is persisted with the supplied index
and status CORRECT and full marks — not with `answerIndex = None`,
status UNATTEMPTED and finalScore 0 as the claim states. -/
theorem forced_reason_counterexample :
    submitView (submitAnswer 1 ⟨1, some 0, "device-alice-0001", some "tab-switch"⟩ wStore) =
      some (some 0, "CORRECT", true, some "tab-switch", 500) := by
  have hT : jsTruthy (some "tab-switch") = true := by decide
  norm_num [submitView, submitAnswer, submitReads, submitCommit, getSubmission,
    getQuestion, getGlobalAnswerOrder, getPreviousQuestionScore,
    pickLatestSubmission, computeScore_correct, createSubmission, wStore,
    getCurrentResetId, hT]

/-- C4 amended: a supplied (non-empty) reason only sets
`isAutoSubmitted = true` and stores `autoSubmitReason` verbatim; the handler
persists `answerIndex` exactly as supplied rather than forcing it to None,
and status/score are computed from that index — so a forced submission is
UNATTEMPTED with finalScore 0 only when the caller itself sends a null
index. -/
theorem forced_reason_stored_verbatim (db : Store) (pid : ℕ) (input : SubmitInput)
    (sub : Submission) (db' : Store)
    (h : submitAnswer pid input db = .ok (sub, db')) :
    sub.answerIndex = input.answerIndex ∧
    sub.autoSubmitReason = input.reason ∧
    sub.isAutoSubmitted = jsTruthy input.reason ∧
    (input.answerIndex = none → sub.status = "UNATTEMPTED" ∧ sub.finalScore = 0) := by
  cases hsub : getSubmission pid input.questionId db with
  | some s =>
      simp only [submitAnswer, submitCommit, submitReads, hsub] at h
      exact Except.noConfusion h
  | none =>
    cases hq : getQuestion input.questionId db with
    | none =>
        simp only [submitAnswer, submitCommit, submitReads, hsub, hq] at h
        exact Except.noConfusion h
    | some q =>
        rw [submitAnswer_ok pid input db q hsub hq, Except.ok.injEq, Prod.ext_iff] at h
        obtain ⟨h1, h2⟩ := h
        dsimp only at h1
        subst h1
        refine ⟨rfl, rfl, rfl, ?_⟩
        intro hnone
        rw [hnone]
        constructor
        · simp only [createSubmission, computeScore_unattempted]
        · simp only [createSubmission, computeScore_unattempted]

/-- The row persisted by the forced (null-index) submission of the C4
amended witness. -/
def wForcedSub : Submission :=
  { id := 1, participantId := 1, questionId := 1, answerIndex := none,
    status := "UNATTEMPTED", answerOrder := 1, wrongAttemptOrder := 1,
    submissionTimestamp := 5, baseMarks := 500, deductionMarks := 0,
    bonusPercentage := 3/5, extraApplied := false, finalScore := 0,
    deviceId := "device-alice-0001", isAutoSubmitted := true,
    autoSubmitReason := some "window-blur", resetId := 0 }

/-- Witness for the C4 amended theorem at a concrete forced submission. -/
theorem forced_reason_stored_verbatim_witness :
    wForcedSub.answerIndex = none ∧
    wForcedSub.autoSubmitReason = some "window-blur" ∧
    wForcedSub.isAutoSubmitted = jsTruthy (some "window-blur") ∧
    ((none : Option ℤ) = none → wForcedSub.status = "UNATTEMPTED" ∧
      wForcedSub.finalScore = 0) :=
  forced_reason_stored_verbatim wStore 1 ⟨1, none, "device-alice-0001", some "window-blur"⟩
    wForcedSub { wStore with submissions := [wForcedSub], nextSubmissionId := 2 }
    (by
      have hW : jsTruthy (some "window-blur") = true := by decide
      norm_num [submitAnswer, submitReads, submitCommit, getSubmission, getQuestion,
        getGlobalAnswerOrder, getPreviousQuestionScore, pickLatestSubmission,
        computeScore_unattempted, createSubmission, wStore, wForcedSub,
        getCurrentResetId, hW])

/-- The participant of `wStore`, flagged banned. -/
def bParticipant : Participant :=
  { id := 1, name := "alice", deviceId := "device-alice-0001",
    isBanned := true, createdAt := 0, lastActiveAt := some 0 }

/-- `wStore` with its only participant flagged banned. -/
def bStore : Store := { wStore with participants := [bParticipant] }

/-- C8 counterexample: with participant 1 banned, the daily-question route
still serves today's question to them and the submit route still records
their scored submission — question and submission access is not rejected. -/
theorem banned_access_counterexample :
    bStore.participants.map (fun p => (p.id, p.isBanned)) = [(1, true)] ∧
    (getDailyQuestionRoute 1 "2026-10-11" bStore).isSome = true ∧
    submitView (submitAnswer 1 ⟨1, some 0, "device-alice-0001", none⟩ bStore) =
      some (some 0, "CORRECT", false, none, 500) := by
  refine ⟨by decide, by decide, ?_⟩
  norm_num [submitView, submitAnswer, submitReads, submitCommit, getSubmission,
    getQuestion, getGlobalAnswerOrder, getPreviousQuestionScore,
    pickLatestSubmission, computeScore_correct, createSubmission, bStore, wStore,
    getCurrentResetId, jsTruthy]

/-- C8 amended: the banned flag is enforced only at identification — a
banned participant identifying (with their bound device) is rejected with
Banned and receives no token — while the daily-question route and the
submit handler never read the participants table at all: their outcomes
(and the persisted submission) are unchanged under any replacement of the
participants table. -/
theorem ban_checked_only_at_identify :
    (∀ (db : Store) (name devId : String) (p : Participant),
      db.participants.find? (fun x => x.name = name) = some p →
      p.deviceId = devId → p.isBanned = true →
      identify name devId db = .error .banned) ∧
    (∀ (db : Store) (ps : List Participant) (pid : ℕ) (d : String),
      getDailyQuestionRoute pid d { db with participants := ps } =
        getDailyQuestionRoute pid d db) ∧
    (∀ (db : Store) (ps : List Participant) (pid : ℕ) (inp : SubmitInput),
      (submitAnswer pid inp { db with participants := ps }).map Prod.fst =
        (submitAnswer pid inp db).map Prod.fst) := by
  refine ⟨?_, ?_, ?_⟩
  · intro db name devId p hfind hdev hban
    simp only [identify, hfind, if_pos hdev, hban]
    simp
  · intro db ps pid d
    rfl
  · intro db ps pid inp
    show Except.map Prod.fst
        (submitCommit pid inp (submitReads pid inp db) { db with participants := ps }) =
      Except.map Prod.fst (submitCommit pid inp (submitReads pid inp db) db)
    simp only [submitCommit, submitReads]
    cases getSubmission pid inp.questionId db with
    | some s => rfl
    | none =>
      cases getQuestion inp.questionId db with
      | none => rfl
      | some q => rfl

/-- Witness for the C8 amended theorem: the banned participant of `bStore`
is rejected at identification. -/
theorem ban_checked_only_at_identify_witness :
    identify "alice" "device-alice-0001" bStore = .error .banned :=
  ban_checked_only_at_identify.1 bStore "alice" "device-alice-0001"
    bParticipant (by decide) rfl rfl

/-- C9 counterexample: deleting question 1 while a submission references it
does not reject — the route succeeds and silently removes the referencing
submission together with the question. -/
theorem delete_cascades_counterexample :
    (deleteQuestionRoute 1 wStoreSubmitted).toOption =
      some { wStoreSubmitted with questions := [], submissions := [] } := by
  decide

/-- C9 amended: the database-level question delete alone is indeed blocked
by the foreign key while submissions reference the question, but the admin
delete route never rejects: it first deletes every referencing submission
itself and then the question — the exposed delete operation implicitly
cascades to Submissions instead of requiring the operator to remove them
first. -/
theorem delete_route_cascades (db : Store) (id : ℕ) :
    ((∃ s ∈ db.submissions, s.questionId = id) →
      deleteQuestionDb id db = .error .fkViolation) ∧
    deleteQuestionRoute id db =
      .ok { db with questions := db.questions.filter (fun q => q.id ≠ id),
                    submissions := db.submissions.filter (fun s => s.questionId ≠ id) } := by
  constructor
  · intro hex
    rw [deleteQuestionDb, if_pos]
    rw [List.any_eq_true]
    obtain ⟨s, hs, hid⟩ := hex
    exact ⟨s, hs, by simpa using hid⟩
  · have hfalse : (db.submissions.filter (fun s => s.questionId ≠ id)).any
        (fun s => s.questionId = id) = false := by
      rw [List.any_eq_false]
      intro s hs
      rw [List.mem_filter] at hs
      simpa using hs.2
    rw [deleteQuestionRoute, deleteSubmissionsByQuestion, deleteQuestionDb]
    rw [if_neg (by simp [hfalse])]

/-- Witness for the C9 amended theorem at the concrete store: the bare
delete is FK-blocked, while the route cascades. -/
theorem delete_route_cascades_witness :
    deleteQuestionDb 1 wStoreSubmitted = .error .fkViolation :=
  (delete_route_cascades wStoreSubmitted 1).1 ⟨wSubmission, List.Mem.head _, rfl⟩

/-- `pickMaxOrder` only returns an element of its input list. -/
lemma pickMaxOrder_mem : ∀ (l : List Question) (q : Question),
    pickMaxOrder l = some q → q ∈ l := by
  intro l
  induction l with
  | nil => intro q h; exact absurd h (by simp [pickMaxOrder])
  | cons x xs ih =>
    intro q h
    rw [pickMaxOrder] at h
    rcases hrec : pickMaxOrder xs with _ | r
    · rw [hrec] at h
      simp only [Option.some.injEq] at h
      exact h ▸ List.mem_cons_self x xs
    · rw [hrec] at h
      by_cases hle : r.order ≤ x.order
      · simp only [if_pos hle, Option.some.injEq] at h
        exact h ▸ List.mem_cons_self x xs
      · simp only [if_neg hle, Option.some.injEq] at h
        exact List.mem_cons_of_mem x (ih q (h ▸ hrec))

/-- C7: `performReset` returns the previous epoch incremented by 1 and
records the reset timestamp, and it touches only the settings row: no
question, submission or participant row is deleted, mutated or re-tagged;
afterwards the default current-epoch reads — the leaderboard row set and
daily-question visibility — only ever produce rows tagged with the new
epoch, so every row created under a prior epoch is excluded while remaining
stored (and hence still queryable by explicit epoch filter). -/
theorem performReset_contract (db : Store) :
    (performReset db).1 = getCurrentResetId db + 1 ∧
    getCurrentResetId (performReset db).2 = getCurrentResetId db + 1 ∧
    (∃ st, (performReset db).2.settings = some st ∧
      st.currentResetId = getCurrentResetId db + 1 ∧
      st.lastResetAt = some db.now) ∧
    (performReset db).2.questions = db.questions ∧
    (performReset db).2.submissions = db.submissions ∧
    (performReset db).2.participants = db.participants ∧
    (∀ typ date s, s ∈ leaderboardSourceRows typ date (performReset db).2 →
      s.resetId = getCurrentResetId db + 1) ∧
    (∀ d q, getDailyQuestion d (performReset db).2 = some q →
      q.resetId = getCurrentResetId db + 1) := by
  have hcur : getCurrentResetId (performReset db).2 = getCurrentResetId db + 1 := by
    rcases h : db.settings with _ | s <;>
      simp [performReset, getCurrentResetId, h]
  have hret : (performReset db).1 = getCurrentResetId db + 1 := by
    rcases h : db.settings with _ | s <;>
      simp [performReset, getCurrentResetId, h]
  have hset : ∃ st, (performReset db).2.settings = some st ∧
      st.currentResetId = getCurrentResetId db + 1 ∧
      st.lastResetAt = some db.now := by
    rcases h : db.settings with _ | s
    · exact ⟨{ id := 1, currentResetId := 1, lastResetAt := some db.now },
        by simp [performReset, getCurrentResetId, h], by simp [getCurrentResetId, h], rfl⟩
    · exact ⟨{ s with currentResetId := s.currentResetId + 1, lastResetAt := some db.now },
        by simp [performReset, getCurrentResetId, h], by simp [getCurrentResetId, h], rfl⟩
  have hqs : (performReset db).2.questions = db.questions := by
    rcases h : db.settings with _ | s <;> simp [performReset, h]
  have hsubs : (performReset db).2.submissions = db.submissions := by
    rcases h : db.settings with _ | s <;> simp [performReset, h]
  have hps : (performReset db).2.participants = db.participants := by
    rcases h : db.settings with _ | s <;> simp [performReset, h]
  refine ⟨hret, hcur, hset, hqs, hsubs, hps, ?_, ?_⟩
  · intro typ date s hs
    rw [leaderboardSourceRows] at hs
    have := (List.mem_filter.mp hs).2
    rw [Bool.and_assoc, Bool.and_eq_true] at this
    have h1 := this.1
    rw [beq_iff_eq] at h1
    rw [h1, hcur]
  · intro d q h
    have hmem := pickMaxOrder_mem _ _ h
    rw [List.mem_filter] at hmem
    have := hmem.2
    rw [decide_eq_true_eq] at this
    rw [this.2.2, hcur]

/-- Witness for C7 at the concrete store (epoch 0 before, 1 after). -/
theorem performReset_contract_witness :
    (performReset wStore).1 = getCurrentResetId wStore + 1 :=
  (performReset_contract wStore).1

/-- The error, if any, of a submit result. -/
def submitErr : Except SubmitError (Submission × Store) → Option SubmitError
  | .error e => some e
  | .ok _ => none

/-- Submit request of participant 1 for question 1. -/
def inpA : SubmitInput := ⟨1, some 0, "device-alice-0001", none⟩

/-- Submit request of participant 2 for question 1. -/
def inpB : SubmitInput := ⟨1, some 1, "device-bob-0002", none⟩

set_option maxRecDepth 8000

/-- C2 (violated by the code): the submit handler runs its reads (duplicate
check, question lookup, count-based answerOrder) as separate awaited
queries with no transaction, unique constraint or re-validation before the
insert, so when two requests both perform their reads against the same
store state before either insert commits, both are assigned
`answerOrder = 1` and both rows are persisted (first conjunct: participants
1 and 2, ending with two submissions for question 1 both ordered 1 — and,
for contrast, a request whose reads happen after the first commit is
ordered 2, and a duplicate of participant 1 with fresh reads is rejected);
with stale reads even the same participant's duplicate passes the
at-most-one check (second conjunct: two rows for the pair (1,1)). -/
theorem stale_reads_duplicate_answer_order :
    ((submitCommit 1 inpA (submitReads 1 inpA wStore) wStore).toOption.bind
      (fun x =>
        (submitCommit 2 inpB (submitReads 2 inpB wStore) x.2).toOption.map
        (fun y => (x.1.answerOrder, y.1.answerOrder,
          (y.2.submissions.filter (fun s => s.questionId = 1)).length,
          (submitAnswer 2 inpB x.2).toOption.map (fun z => z.1.answerOrder),
          submitErr (submitAnswer 1 inpA x.2))))) =
      some (1, 1, 2, some 2, some .alreadySubmitted) ∧
    ((submitCommit 1 inpA (submitReads 1 inpA wStore) wStore).toOption.bind
      (fun x =>
        (submitCommit 1 inpA (submitReads 1 inpA wStore) x.2).toOption.map
        (fun y => (y.2.submissions.filter
            (fun s => s.participantId = 1 ∧ s.questionId = 1)).length))) =
      some 2 := by
  constructor
  · decide
  · decide

/-- No question is strictly later than itself. -/
lemma laterSlot_irrefl (q : ScheduledQuestion) : laterSlot q q = false := by
  simp [laterSlot, strLt]

/-- `pickLatestSlot` only returns an element of its input list. -/
lemma pickLatestSlot_mem : ∀ (l : List ScheduledQuestion) (q : ScheduledQuestion),
    pickLatestSlot l = some q → q ∈ l := by
  intro l
  induction l with
  | nil => intro q h; exact absurd h (by simp [pickLatestSlot])
  | cons x xs ih =>
    intro q h
    rw [pickLatestSlot] at h
    rcases hrec : pickLatestSlot xs with _ | r
    · rw [hrec] at h
      simp only [Option.some.injEq] at h
      exact h ▸ List.mem_cons_self x xs
    · rw [hrec] at h
      by_cases hls : laterSlot r x
      · simp only [if_pos hls, Option.some.injEq] at h
        exact List.mem_cons_of_mem x (ih q (h ▸ hrec))
      · simp only [if_neg hls, Option.some.injEq] at h
        exact h ▸ List.mem_cons_self x xs

/-- `pickLatestSlot` returns the element that strictly dominates every other
element of the list. -/
lemma pickLatestSlot_max : ∀ (l : List ScheduledQuestion) (q : ScheduledQuestion),
    q ∈ l →
    (∀ q' ∈ l, q' ≠ q → laterSlot q q' = true ∧ laterSlot q' q = false) →
    pickLatestSlot l = some q := by
  intro l
  induction l with
  | nil => intro q h; exact absurd h (List.not_mem_nil q)
  | cons x xs ih =>
    intro q hmem hdom
    by_cases hxq : x = q
    · subst hxq
      rw [pickLatestSlot]
      rcases hrec : pickLatestSlot xs with _ | r
      · rfl
      · have hrmem := pickLatestSlot_mem xs r hrec
        by_cases hrq : r = x
        · subst hrq
          simp [laterSlot_irrefl]
        · simp [(hdom r (List.mem_cons_of_mem x hrmem) hrq).2]
    · have hq : q ∈ xs := by
        rcases List.mem_cons.mp hmem with h | h
        · exact absurd h.symm hxq
        · exact h
      have hrec := ih q hq (fun q' h' hne => hdom q' (List.mem_cons_of_mem x h') hne)
      rw [pickLatestSlot, hrec]
      simp [(hdom x (List.mem_cons_self x xs) (fun h' => hxq h')).1]

/-- C3 (spec-modelled): a question of the current epoch, dated today, with a
scheduled time `t` is never returned by `resolveVisibleQuestion` while the
wall-clock `HH:mm` is strictly before `t`, and is returned once the
wall-clock time is `t` or later, provided the participant has no prior
submission for it and no other eligible question of the day opens later
(or ties with a higher day-order); eligibility is exactly "no scheduled
time, or scheduled time ≤ current wall-clock time" as string comparison of
zero-padded `HH:mm`. -/
theorem scheduled_time_gates_visibility
    (today nowTime : String) (pid : ℕ) (E : ℕ)
    (qs : List ScheduledQuestion) (subs : List (ℕ × ℕ))
    (q : ScheduledQuestion) (t : String)
    (ht : q.scheduledTime = some t) :
    (strLe t nowTime = false →
      resolveVisibleQuestion today nowTime pid E qs subs ≠ some q) ∧
    (strLe t nowTime = true → q ∈ qs → q.quizDate = today → q.isActive = true →
      q.resetId = E →
      (∀ q' ∈ qs, q' ≠ q → q'.quizDate = today → q'.isActive = true →
        q'.resetId = E → eligibleAt nowTime q' = true →
        laterSlot q q' = true ∧ laterSlot q' q = false) →
      subs.any (fun s => s.1 == pid && s.2 == q.id) = false →
      resolveVisibleQuestion today nowTime pid E qs subs = some q) := by
  constructor
  · intro hlt hcontra
    rw [resolveVisibleQuestion] at hcontra
    rcases hpick : pickLatestSlot ((qs.filter (fun x =>
        x.quizDate == today && x.isActive && x.resetId == E)).filter
        (eligibleAt nowTime)) with _ | q0
    · rw [hpick] at hcontra
      exact Option.noConfusion hcontra
    · rw [hpick] at hcontra
      dsimp only at hcontra
      by_cases hany : subs.any (fun s => s.1 == pid && s.2 == q0.id) = true
      · rw [if_pos hany] at hcontra
        exact Option.noConfusion hcontra
      · rw [if_neg hany] at hcontra
        have hq0 : q0 = q := by simpa using hcontra
        subst hq0
        have hmem := pickLatestSlot_mem _ _ hpick
        have helig := (List.mem_filter.mp hmem).2
        simp only [eligibleAt, ht] at helig
        rw [hlt] at helig
        exact Bool.noConfusion helig
  · intro hle hmem hdate hact hepoch hdom hany
    have hq : q ∈ (qs.filter (fun x =>
        x.quizDate == today && x.isActive && x.resetId == E)).filter
        (eligibleAt nowTime) := by
      rw [List.mem_filter]
      refine ⟨List.mem_filter.mpr ⟨hmem, ?_⟩, ?_⟩
      · rw [Bool.and_eq_true, Bool.and_eq_true]
        exact ⟨⟨beq_iff_eq.mpr hdate, hact⟩, beq_iff_eq.mpr hepoch⟩
      · rw [eligibleAt, ht]
        exact hle
    have hpick : pickLatestSlot ((qs.filter (fun x =>
        x.quizDate == today && x.isActive && x.resetId == E)).filter
        (eligibleAt nowTime)) = some q := by
      refine pickLatestSlot_max _ q hq ?_
      intro q' hq' hne
      have h1 := List.mem_filter.mp hq'
      have h2 := List.mem_filter.mp h1.1
      have h3 := h2.2
      rw [Bool.and_eq_true, Bool.and_eq_true] at h3
      exact hdom q' h2.1 hne (beq_iff_eq.mp h3.1.1) h3.1.2
        (beq_iff_eq.mp h3.2) h1.2
    simp only [resolveVisibleQuestion]
    rw [hpick]
    dsimp only
    rw [if_neg (by rw [hany]; simp)]

/-- The question of the C3 witness: scheduled at 14:30 today. -/
def schedQ : ScheduledQuestion :=
  { id := 1, quizDate := "2026-10-11", order := 1, isActive := true,
    resetId := 0, scheduledTime := some "14:30" }

/-- Witness for C3: the 14:30 question is invisible at 14:29 and visible at
14:30 on the same date. -/
theorem scheduled_time_gates_visibility_witness :
    resolveVisibleQuestion "2026-10-11" "14:29" 1 0 [schedQ] [] ≠ some schedQ ∧
    resolveVisibleQuestion "2026-10-11" "14:30" 1 0 [schedQ] [] = some schedQ :=
  ⟨(scheduled_time_gates_visibility "2026-10-11" "14:29" 1 0 [schedQ] []
      schedQ "14:30" rfl).1 (by decide),
   (scheduled_time_gates_visibility "2026-10-11" "14:30" 1 0 [schedQ] []
      schedQ "14:30" rfl).2 (by decide) (List.Mem.head _) rfl rfl rfl
      (fun q' hmem hne => absurd (List.mem_singleton.mp hmem) hne) rfl⟩



/-- C10 counterexample: under the double-precision semantics the code
actually computes with, the stored `bonusPercentage` for `answerOrder = 6`
is not the exact decimal `0.1`: the computed double `0.7 - 6*0.1` is
`0.09999999999999987…`, so the scoring arithmetic is binary floating point,
not exact decimal. -/
theorem bonus_not_exact_decimal_counterexample :
    (computeScoreJs 0 (some 0) 6 ⟨50, 1⟩).bonusPercentage.eqv ⟨1, 10⟩ = false ∧
    QR.toRat (computeScoreJs 0 (some 0) 6 ⟨50, 1⟩).bonusPercentage ≠ 1/10 := by
  constructor
  · decide
  · have h : (computeScoreJs 0 (some 0) 6 ⟨50, 1⟩).bonusPercentage =
        ⟨7205759403792784, 72057594037927936⟩ := by decide
    rw [h, QR.toRat]
    norm_num

/-- C10 amended: the scoring pipeline computes with IEEE-754 binary64
("JS number") arithmetic, not a decimal/fixed-point type.  For
`answerOrder = 6`, a correct answer and `previousScore = 50`, the persisted
`baseMarks` and `finalScore` are still exactly `450` (that subexpression is
integer-valued and exact in binary64), but the persisted `bonusPercentage`
is the double `450359962737049/2^52 = 0.09999999999999987…`, not
`max(0, 0.7 - 0.6) = 0.1`. -/
theorem order6_double_breakdown :
    (computeScoreJs 0 (some 0) 6 ⟨50, 1⟩).status = "CORRECT" ∧
    QR.toRat (computeScoreJs 0 (some 0) 6 ⟨50, 1⟩).baseMarks = 450 ∧
    QR.toRat (computeScoreJs 0 (some 0) 6 ⟨50, 1⟩).finalScore = 450 ∧
    (computeScoreJs 0 (some 0) 6 ⟨50, 1⟩).extraApplied = false ∧
    QR.toRat (computeScoreJs 0 (some 0) 6 ⟨50, 1⟩).bonusPercentage =
      450359962737049 / 4503599627370496 ∧
    QR.toRat (computeScoreJs 0 (some 0) 6 ⟨50, 1⟩).bonusPercentage ≠ 1/10 := by
  have hbase : (computeScoreJs 0 (some 0) 6 ⟨50, 1⟩).baseMarks =
      ⟨7916483719987200, 17592186044416⟩ := by decide
  have hfin : (computeScoreJs 0 (some 0) 6 ⟨50, 1⟩).finalScore =
      ⟨7916483719987200, 17592186044416⟩ := by decide
  have hbon : (computeScoreJs 0 (some 0) 6 ⟨50, 1⟩).bonusPercentage =
      ⟨7205759403792784, 72057594037927936⟩ := by decide
  refine ⟨by decide, ?_, ?_, by decide, ?_, ?_⟩
  · rw [hbase, QR.toRat]; norm_num
  · rw [hfin, QR.toRat]; norm_num
  · rw [hbon, QR.toRat]; norm_num
  · rw [hbon, QR.toRat]; norm_num

/-- `buildDouble` always returns a positive denominator. -/
lemma buildDouble_den_pos (n : ℕ) (e : ℤ) : 0 < (buildDouble n e).den := by
  simp only [buildDouble]
  split_ifs <;> simp

/-- `buildDouble` always returns a nonnegative numerator. -/
lemma buildDouble_num_nonneg (n : ℕ) (e : ℤ) : 0 ≤ (buildDouble n e).num := by
  simp only [buildDouble]
  split_ifs <;> simp

/-- `roundPosQR` always returns a positive denominator. -/
lemma roundPosQR_den_pos (x : QR) : 0 < (roundPosQR x).den :=
  buildDouble_den_pos _ _

/-- `roundPosQR` always returns a nonnegative numerator. -/
lemma roundPosQR_num_nonneg (x : QR) : 0 ≤ (roundPosQR x).num :=
  buildDouble_num_nonneg _ _

/-- Rounding to a double keeps the denominator positive. -/
lemma roundDouble_den_pos (x : QR) : 0 < (roundDouble x).den := by
  simp only [roundDouble]
  split_ifs
  · norm_num
  · exact roundPosQR_den_pos _
  · exact roundPosQR_den_pos _

/-- Rounding a nonnegative value to a double keeps the numerator
nonnegative. -/
lemma roundDouble_num_nonneg (x : QR) (h : 0 ≤ x.num) :
    0 ≤ (roundDouble x).num := by
  simp only [roundDouble]
  split_ifs with h1 h2
  · norm_num
  · exact absurd h2 (not_lt.mpr h)
  · exact roundPosQR_num_nonneg _

/-- `Math.max(0, v)` has a nonnegative numerator. -/
lemma maxQ_zero_num_nonneg (v : QR) : 0 ≤ (QR.maxQ (QR.ofInt 0) v).num := by
  simp only [QR.maxQ, QR.ltb, QR.ofInt]
  split_ifs with h
  · have hv : (0 : ℤ) < v.num := by simpa using h
    exact hv.le
  · norm_num

/-- `Math.max(0, v)` keeps a positive denominator. -/
lemma maxQ_zero_den_pos (v : QR) (hv : 0 < v.den) :
    0 < (QR.maxQ (QR.ofInt 0) v).den := by
  simp only [QR.maxQ, QR.ofInt]
  split_ifs
  · exact hv
  · norm_num

/-- The `-50` clamp never fires on a nonnegative value. -/
lemma maxQ_neg50 (v : QR) (hnum : 0 ≤ v.num) (hden : 0 < v.den) :
    QR.maxQ (QR.ofInt (-50)) v = v := by
  cases hb : QR.ltb (QR.ofInt (-50)) v with
  | true => simp [QR.maxQ, hb]
  | false =>
      exfalso
      simp only [QR.ltb, QR.ofInt, decide_eq_false_iff_not] at hb
      exact hb (by nlinarith)

/-- With a correct answer and a recovery-eligible previous score, the
binary64 scoring steps produce the CORRECT breakdown with the bonus
applied. -/
lemma computeScoreJs_correct_eligible (c : ℤ) (order : ℕ) (prev : QR)
    (h : QR.leb prev (QR.ofInt 0) = true) :
    computeScoreJs c (some c) order prev =
      { status := "CORRECT", wrongAttemptOrder := 1,
        baseMarks := QR.maxQ (QR.ofInt 0)
          (dsub (QR.ofInt 510) (dmul (QR.ofInt order) (QR.ofInt 10))),
        deductionMarks := QR.ofInt 0,
        bonusPercentage := QR.maxQ (QR.ofInt 0)
          (dsub lit07 (dmul (QR.ofInt order) lit01)),
        extraApplied := true,
        finalScore := QR.maxQ (QR.ofInt (-50))
          (dmul (QR.maxQ (QR.ofInt 0)
              (dsub (QR.ofInt 510) (dmul (QR.ofInt order) (QR.ofInt 10))))
            (dadd (QR.ofInt 1) (QR.maxQ (QR.ofInt 0)
              (dsub lit07 (dmul (QR.ofInt order) lit01))))) } := by
  simp [computeScoreJs, h]

/-- With a correct answer and an ineligible previous score, the binary64
scoring steps produce the CORRECT breakdown with the bonus unapplied. -/
lemma computeScoreJs_correct_ineligible (c : ℤ) (order : ℕ) (prev : QR)
    (h : QR.leb prev (QR.ofInt 0) = false) :
    computeScoreJs c (some c) order prev =
      { status := "CORRECT", wrongAttemptOrder := 1,
        baseMarks := QR.maxQ (QR.ofInt 0)
          (dsub (QR.ofInt 510) (dmul (QR.ofInt order) (QR.ofInt 10))),
        deductionMarks := QR.ofInt 0,
        bonusPercentage := QR.maxQ (QR.ofInt 0)
          (dsub lit07 (dmul (QR.ofInt order) lit01)),
        extraApplied := false,
        finalScore := QR.maxQ (QR.ofInt (-50))
          (QR.maxQ (QR.ofInt 0)
            (dsub (QR.ofInt 510) (dmul (QR.ofInt order) (QR.ofInt 10)))) } := by
  simp [computeScoreJs, h]

/-- C1 counterexample: the claimed persisted equalities fail under the
binary64 arithmetic the program uses — at `answerOrder = 2` the stored
bonusPercentage is `0.49999999999999994`, not `max(0, 0.7 - 2*0.1) = 0.5`,
and for a recovery-eligible correct answer at `answerOrder = 6`
(previousScore = -10) the stored finalScore is `494.99999999999994`, not
`max(0, 510 - 60) * (1 + max(0, 0.7 - 0.6)) = 495`. -/
theorem correct_score_drift_counterexample :
    QR.toRat (computeScoreJs 0 (some 0) 2 ⟨50, 1⟩).bonusPercentage ≠
      max 0 (7/10 - 2 * (1/10)) ∧
    (computeScoreJs 0 (some 0) 6 ⟨-10, 1⟩).extraApplied = true ∧
    QR.toRat (computeScoreJs 0 (some 0) 6 ⟨-10, 1⟩).finalScore ≠
      max 0 ((510 : ℚ) - 6 * 10) * (1 + max 0 (7/10 - 6 * (1/10))) := by
  refine ⟨?_, by decide, ?_⟩
  · have h : (computeScoreJs 0 (some 0) 2 ⟨50, 1⟩).bonusPercentage =
        ⟨9007199254740991, 18014398509481984⟩ := by decide
    rw [h, QR.toRat]
    rw [show (max 0 (7/10 - 2 * (1/10)) : ℚ) = 1/2 by
      rw [max_eq_right (by norm_num)]; norm_num]
    norm_num
  · have h : (computeScoreJs 0 (some 0) 6 ⟨-10, 1⟩).finalScore =
        ⟨8708132091985919, 17592186044416⟩ := by decide
    rw [h, QR.toRat]
    rw [show (max 0 ((510 : ℚ) - 6 * 10) * (1 + max 0 (7/10 - 6 * (1/10))) : ℚ) = 495 by
      rw [max_eq_right (by norm_num), max_eq_right (by norm_num)]; norm_num]
    norm_num

/-- C1 amended: for every persisted correct submission, status = CORRECT
and answerOrder is 1-based (count of prior submissions for the question,
plus one), with extraApplied exactly when the previous-score signal is
≤ 0; the numeric components are the IEEE-754 binary64 evaluations of the
claimed formulas — `baseMarks = fl(max(0, 510 - answerOrder*10))`,
`bonusPercentage = fl(max(0, 0.7 - answerOrder*0.1))`, and finalScore is
the binary64 product `baseMarks*(1 + bonusPercentage)` when eligible and
`baseMarks` otherwise (the `-50` clamp never fires on a correct answer) —
which differ from the exact decimal values at some orders, as the
counterexample shows. -/
theorem correct_answer_score_breakdown_binary64 :
    (∀ (db : Store) (pid : ℕ) (input : SubmitInput) (q : Question),
      getSubmission pid input.questionId db = none →
      getQuestion input.questionId db = some q →
      input.answerIndex = some q.correctAnswerIndex →
      ∃ sub db', submitAnswer pid input db = .ok (sub, db') ∧
        sub.status = "CORRECT" ∧
        sub.answerOrder =
          (db.submissions.filter (fun s => s.questionId = input.questionId)).length + 1 ∧
        (getPreviousQuestionScore pid db ≤ 0 → sub.extraApplied = true) ∧
        (¬ getPreviousQuestionScore pid db ≤ 0 → sub.extraApplied = false)) ∧
    (∀ (c : ℤ) (order : ℕ) (prev : QR),
      (computeScoreJs c (some c) order prev).status = "CORRECT" ∧
      (computeScoreJs c (some c) order prev).baseMarks =
        QR.maxQ (QR.ofInt 0)
          (dsub (QR.ofInt 510) (dmul (QR.ofInt order) (QR.ofInt 10))) ∧
      (computeScoreJs c (some c) order prev).bonusPercentage =
        QR.maxQ (QR.ofInt 0) (dsub lit07 (dmul (QR.ofInt order) lit01)) ∧
      (computeScoreJs c (some c) order prev).extraApplied =
        QR.leb prev (QR.ofInt 0) ∧
      (QR.leb prev (QR.ofInt 0) = true →
        (computeScoreJs c (some c) order prev).finalScore =
          dmul (computeScoreJs c (some c) order prev).baseMarks
            (dadd (QR.ofInt 1)
              (computeScoreJs c (some c) order prev).bonusPercentage)) ∧
      (QR.leb prev (QR.ofInt 0) = false →
        (computeScoreJs c (some c) order prev).finalScore =
          (computeScoreJs c (some c) order prev).baseMarks)) := by
  constructor
  · intro db pid input q hnosub hq hidx
    have h := submitAnswer_ok pid input db q hnosub hq
    rw [hidx, computeScore_correct] at h
    refine ⟨_, _, h, rfl, rfl, ?_, ?_⟩
    · intro hle
      simp only [createSubmission, decide_eq_true_eq]
      exact hle
    · intro hgt
      simp only [createSubmission, decide_eq_false_iff_not]
      exact hgt
  · intro c order prev
    have hbase_num : 0 ≤ (QR.maxQ (QR.ofInt 0)
        (dsub (QR.ofInt 510) (dmul (QR.ofInt order) (QR.ofInt 10)))).num :=
      maxQ_zero_num_nonneg _
    have hbase_den : 0 < (QR.maxQ (QR.ofInt 0)
        (dsub (QR.ofInt 510) (dmul (QR.ofInt order) (QR.ofInt 10)))).den :=
      maxQ_zero_den_pos _ (roundDouble_den_pos _)
    have hbon_num : 0 ≤ (QR.maxQ (QR.ofInt 0)
        (dsub lit07 (dmul (QR.ofInt order) lit01))).num :=
      maxQ_zero_num_nonneg _
    have hbon_den : 0 < (QR.maxQ (QR.ofInt 0)
        (dsub lit07 (dmul (QR.ofInt order) lit01))).den :=
      maxQ_zero_den_pos _ (roundDouble_den_pos _)
    cases heleb : QR.leb prev (QR.ofInt 0) with
    | false =>
        rw [computeScoreJs_correct_ineligible c order prev heleb]
        refine ⟨rfl, rfl, rfl, rfl, ?_, ?_⟩
        · intro hcontra
          exact Bool.noConfusion hcontra
        · intro _
          exact maxQ_neg50 _ hbase_num hbase_den
    | true =>
        rw [computeScoreJs_correct_eligible c order prev heleb]
        refine ⟨rfl, rfl, rfl, rfl, ?_, ?_⟩
        · intro _
          refine maxQ_neg50 _ ?_ (roundDouble_den_pos _)
          refine roundDouble_num_nonneg _ ?_
          simp only [QR.mul]
          refine mul_nonneg hbase_num ?_
          refine roundDouble_num_nonneg _ ?_
          simp only [QR.add]
          rw [show (QR.ofInt 1).num = 1 from rfl, show (QR.ofInt 1).den = 1 from rfl]
          linarith
        · intro hcontra
          exact Bool.noConfusion hcontra

/-- Witness for the C1 amended theorem at a concrete input. -/
theorem correct_answer_score_breakdown_binary64_witness :
    ∃ sub db',
      submitAnswer 1 ⟨1, some 0, "device-alice-0001", none⟩ wStore = .ok (sub, db') ∧
      sub.status = "CORRECT" ∧
      sub.answerOrder = (wStore.submissions.filter (fun s => s.questionId = 1)).length + 1 ∧
      (getPreviousQuestionScore 1 wStore ≤ 0 → sub.extraApplied = true) ∧
      (¬ getPreviousQuestionScore 1 wStore ≤ 0 → sub.extraApplied = false) :=
  correct_answer_score_breakdown_binary64.1 wStore 1
    ⟨1, some 0, "device-alice-0001", none⟩ wQuestion (by decide) (by decide) rfl

end Quiz
